import Mathlib

/-!
# Verification of the ScreenDrawing drawing/composition engine

Shallow embedding of `src/screendrawing.py` (a PyQt5 screen-annotation
overlay).  The canvas pixel buffer (`QPixmap`) is abstracted as a type
parameter `α`; history snapshots are full values of `α`, matching
`QPixmap.copy()` which produces an independent deep copy.  Machine
integers are modelled as `ℤ` (Python integers are unbounded), colors as
records of channel values, and the geometry of `draw_arrow` over `ℝ`.
-/

namespace ScreenDrawing

/-- An RGBA color value, as held by a `QColor` (channels 0..255). -/
structure RGBA where
  r : ℕ
  g : ℕ
  b : ℕ
  a : ℕ
  deriving DecidableEq, Repr

/-- The state captured by a `FloatingTextInput` (`_pos`, `_font`, `_color`
and the editable text). -/
structure TextEntry where
  pos : ℤ × ℤ
  font_family : String
  font_size : ℤ
  color : RGBA
  text : String
  deriving DecidableEq, Repr

/-- The mutable state of the `ScreenDrawing` widget that the claims are
about: tool/style state from `init_variables`, the persistent canvas, the
undo stack and the pending text entry.  The canvas type `α` abstracts
`QPixmap`. -/
structure ScreenState (α : Type) where
  current_tool : String
  pen_color : RGBA
  pen_width : ℤ
  fill_enabled : Bool
  highlighter : Bool
  eraser : Bool
  font_family : String
  font_size : ℤ
  /-- The current value of the toolbar width spinbox (`width_spin`, a
  `QSpinBox` with range 1..120).  It is program state that feeds back into
  the engine: `quick_size` calls `width_spin.setValue(...)`, and the
  spinbox's `valueChanged` signal is connected to `set_width`. -/
  width_spin : ℤ
  canvas : α
  undo_stack : List α
  text_input : Option TextEntry
  deriving DecidableEq

/-- `MAX_UNDO_STEPS = 50` from the top of the module. -/
def MAX_UNDO_STEPS : ℕ := 50

/-- `ScreenDrawing._push_undo`: append a snapshot (`self.canvas.copy()` —
an independent copy, in this pure model simply the current value of the
canvas), then evict index 0 when the length exceeds `MAX_UNDO_STEPS`. -/
def push_undo {α : Type} (s : ScreenState α) : ScreenState α :=
  if (s.undo_stack ++ [s.canvas]).length > MAX_UNDO_STEPS then
    { s with undo_stack := (s.undo_stack ++ [s.canvas]).drop 1 }
  else
    { s with undo_stack := s.undo_stack ++ [s.canvas] }

/-- `ScreenDrawing.undo`: if the stack is non-empty, pop the last snapshot
(`list.pop()`) and make it the canvas; otherwise do nothing. -/
def undoOp {α : Type} (s : ScreenState α) : ScreenState α :=
  match s.undo_stack.getLast? with
  | none => s
  | some a => { s with canvas := a, undo_stack := s.undo_stack.dropLast }

/-- One undoable operation (stroke start / shape finalize / text commit /
clear-all): `_push_undo` first, followed by a mutation `f` of the canvas.
This is the push-before-mutate discipline of `mousePressEvent`,
`_commit_text` and `clear_canvas`. -/
def undoableOp {α : Type} (f : α → α) (s : ScreenState α) : ScreenState α :=
  let s' := push_undo s
  { s' with canvas := f s'.canvas }

/-- Run a sequence of undoable operations in order. -/
def applyOps {α : Type} (fs : List (α → α)) (s : ScreenState α) : ScreenState α :=
  fs.foldl (fun t f => undoableOp f t) s

/-- The canvas value after running a list of canvas mutations. -/
def foldCanvas {α : Type} : List (α → α) → α → α
  | [], c => c
  | f :: fs, c => foldCanvas fs (f c)

/-- The snapshots a sequence of operations pushes (oldest first): the
canvas as it was just before each operation. -/
def stackTrace {α : Type} : List (α → α) → α → List α
  | [], _ => []
  | f :: fs, c => c :: stackTrace fs (f c)

/-- The defaults set by `init_variables` before `_load_settings` runs:
tool "pen", color `QColor(255, 50, 50)`, width 4, all flags off, font
`QFont("Sans", 24)`, empty stack, no pending text. -/
def initState {α : Type} (c : α) : ScreenState α :=
  { current_tool := "pen"
    pen_color := ⟨255, 50, 50, 255⟩
    pen_width := 4
    fill_enabled := false
    highlighter := false
    eraser := false
    font_family := "Sans"
    font_size := 24
    width_spin := 4
    canvas := c
    undo_stack := []
    text_input := none }

/-- The default state over `α := ℕ`, used as a convenient concrete state
by witnesses (canvas `0`, empty stack, no text entry). -/
def baseState : ScreenState ℕ := initState 0

/-- A JSON value, as produced by `json.load` for the fields of the
settings record: null, booleans, integers, floating-point numbers
(modelled as rationals — the loader only ever tests their truthiness and
their non-int-ness), strings, arrays and objects. -/
inductive JVal where
  | jnull
  | jbool (b : Bool)
  | jint (n : ℤ)
  | jfloat (q : ℚ)
  | jstr (s : String)
  | jarr (l : List JVal)
  | jobj (l : List (String × JVal))

/-- The parsed settings record: each field of the JSON object, or `none`
when the key is absent (`data.get` then returns its default). -/
structure SettingsJson where
  tool : Option JVal := none
  color : Option JVal := none
  width : Option JVal := none
  fill : Option JVal := none
  highlight : Option JVal := none
  font_family : Option JVal := none
  font_size : Option JVal := none

/-- Python truthiness (`bool(v)` / `if v:`) on JSON values: zero numbers,
the empty string, the empty list and the empty dict are falsy. -/
def pyTruthy : JVal → Bool
  | .jnull => false
  | .jbool b => b
  | .jint n => n != 0
  | .jfloat q => q != 0
  | .jstr s => s != ""
  | .jarr l => !l.isEmpty
  | .jobj l => !l.isEmpty

/-- Python `isinstance(v, int)` together with the integer value: note that
Python `bool` is a subclass of `int` (`True == 1`, `False == 0`), while a
float is never an `int`. -/
def pyInt? : JVal → Option ℤ
  | .jint n => some n
  | .jbool b => some (if b then 1 else 0)
  | _ => none

/-- Whether `QColor(v)` succeeds: PyQt5 accepts a string (a color name or
hex form) and an int (the `QRgb` overload, hence also a bool); on a
float, list or dict it raises `TypeError`.  Only truthy values reach
`QColor`, so the value for `null` is irrelevant. -/
def qcolorOk : JVal → Bool
  | .jstr _ => true
  | .jint _ => true
  | .jbool _ => true
  | _ => false

/-- The six valid tool names checked by `_load_settings`. -/
def VALID_TOOLS : List String := ["pen", "rect", "ellipse", "line", "arrow", "text"]

/-- `tool = data.get("tool", "pen"); if tool in (...): self.current_tool = tool`.
A non-string value never equals one of the six names, so it is skipped. -/
def loadTool {α : Type} (d : SettingsJson) (s : ScreenState α) : ScreenState α :=
  match d.tool.getD (.jstr "pen") with
  | .jstr t => if t ∈ VALID_TOOLS then { s with current_tool := t } else s
  | _ => s

/-- `color = data.get("color"); if color: self.pen_color = QColor(color)`.
Successful `QColor` construction is abstracted as the parameter `qcolor`;
a truthy value `QColor` cannot accept (float/array/object) raises
`TypeError` inside the `try`, modelled as `none` — the raise aborts the
remaining field loads. -/
def loadColor? {α : Type} (qcolor : JVal → RGBA) (d : SettingsJson) (s : ScreenState α) :
    Option (ScreenState α) :=
  match d.color with
  | some v =>
    if pyTruthy v then
      if qcolorOk v then some { s with pen_color := qcolor v } else none
    else some s
  | none => some s

/-- `width = data.get("width"); if isinstance(width, int) and 1 <= width <= 120:
self.pen_width = width`. -/
def loadWidth {α : Type} (d : SettingsJson) (s : ScreenState α) : ScreenState α :=
  match d.width with
  | some v =>
    match pyInt? v with
    | some n => if 1 ≤ n ∧ n ≤ 120 then { s with pen_width := n } else s
    | none => s
  | none => s

/-- `self.fill_enabled = bool(data.get("fill", False))` and
`self.highlighter = bool(data.get("highlight", False))`. -/
def loadToggles {α : Type} (d : SettingsJson) (s : ScreenState α) : ScreenState α :=
  { s with fill_enabled := pyTruthy (d.fill.getD (.jbool false)),
           highlighter := pyTruthy (d.highlight.getD (.jbool false)) }

/-- The font block of `_load_settings`: `if font_family:` then
`QFont(font_family, size)` with `size = font_size if isinstance(font_size,
int) else 24`.  A falsy family skips the block; a truthy non-string family
makes `QFont` raise `TypeError` inside the `try`, which the `except`
swallows — either way the font keeps its previous value, so only a
non-empty string family updates it. -/
def loadFont {α : Type} (d : SettingsJson) (s : ScreenState α) : ScreenState α :=
  match d.font_family.getD .jnull with
  | .jstr f =>
    if f ≠ "" then
      { s with font_family := f,
               font_size := (pyInt? (d.font_size.getD .jnull)).getD 24 }
    else s
  | _ => s

/-- `ScreenDrawing._load_settings`: `none` models the `open`/`json.load`
failure path (missing file, malformed JSON, or a non-dict top level that
makes `data.get` raise immediately), swallowed by the `except` so every
default stays.  Otherwise the fields are applied in source order; when
`QColor` raises on the color field (`loadColor?` returning `none`), the
`except` swallows the `TypeError` and the function returns with only the
fields processed before `color` (the tool) applied. -/
def _load_settings {α : Type} (qcolor : JVal → RGBA) (data? : Option SettingsJson)
    (s : ScreenState α) : ScreenState α :=
  match data? with
  | none => s
  | some d =>
    match loadColor? qcolor d (loadTool d s) with
    | none => loadTool d s
    | some s2 => loadFont d (loadToggles d (loadWidth d s2))

/-- A concrete settings record for witnesses: a valid tool "rect" and an
out-of-range width 500. -/
def exSettings : SettingsJson :=
  { tool := some (.jstr "rect"), width := some (.jint 500) }

/-- A concrete settings record with only a valid width 50. -/
def exSettingsWidth : SettingsJson := { width := some (.jint 50) }

/-- A concrete settings record on which the load aborts mid-way: a valid
tool "rect", a truthy array color value (so `QColor` raises `TypeError`),
and a valid width 50 that the swallowed exception prevents from being
applied. -/
def exSettingsAbort : SettingsJson :=
  { tool := some (.jstr "rect"), color := some (.jarr [.jint 1]),
    width := some (.jint 50) }

/-- Qt `QFont.setPointSize`: sets the font's point size, but ignores the
request (printing a warning) when the requested size is not strictly
positive. -/
def setPointSize {α : Type} (v : ℤ) (s : ScreenState α) : ScreenState α :=
  if 0 < v then { s with font_size := v } else s

/-- `ScreenDrawing.set_width`: `self.pen_width = val` (stored unclamped)
followed by `self.text_font.setPointSize(val)`.  The toolbar spinbox that
emits the `valueChanged` signal feeding this mutator is restricted to
1..120. -/
def set_width {α : Type} (val : ℤ) (s : ScreenState α) : ScreenState α :=
  setPointSize val { s with pen_width := val }

/-- The spinbox's range clamp: `width_spin.setRange(1, 120)`. -/
def clampSpin (v : ℤ) : ℤ := max 1 (min v 120)

/-- Qt `QSpinBox.setValue(v)`: the spinbox clamps the value into its
range and stores it; when the stored value actually changed it emits
`valueChanged`, which is connected to `set_width`. -/
def setValueSpin {α : Type} (v : ℤ) (s : ScreenState α) : ScreenState α :=
  if s.width_spin = clampSpin v then s
  else set_width (clampSpin v) { s with width_spin := clampSpin v }

/-- `ScreenDrawing.quick_size`: `self.pen_width = size`, then
`self.toolbar.width_spin.setValue(size)` — whose echo re-runs `set_width`
with the clamped value when the spinbox value changes — then
`self.text_font.setPointSize(size)`. -/
def quick_size {α : Type} (size : ℤ) (s : ScreenState α) : ScreenState α :=
  setPointSize size (setValueSpin size { s with pen_width := size })

/-- The stroke color actually used for rasterization: the pen color, with
alpha forced to 128 when highlighter mode is on (`color.setAlpha(128)`). -/
def styleColor {α : Type} (s : ScreenState α) : RGBA :=
  if s.highlighter then { s.pen_color with a := 128 } else s.pen_color

/-- `ScreenDrawing.get_pen`: returns `none` for `Qt.NoPen` when the
highlighter+fill+rect/ellipse combination (eraser off, not a line/arrow
call) suppresses the outline; otherwise a pen with the style color and the
current width. -/
def get_pen {α : Type} (s : ScreenState α) (for_line : Bool) : Option (RGBA × ℤ) :=
  if s.highlighter = true ∧ s.fill_enabled = true ∧
      (s.current_tool = "rect" ∨ s.current_tool = "ellipse") ∧
      s.eraser = false ∧ for_line = false then
    none
  else
    some (styleColor s, s.pen_width)

/-- `ScreenDrawing.get_brush`: a filled brush in the style color only for
rect/ellipse/arrow with fill enabled and eraser off; `none` is
`Qt.NoBrush`. -/
def get_brush {α : Type} (s : ScreenState α) : Option RGBA :=
  if s.fill_enabled = true ∧
      (s.current_tool = "rect" ∨ s.current_tool = "ellipse" ∨ s.current_tool = "arrow") ∧
      s.eraser = false then
    some (styleColor s)
  else
    none

/-- Qt `QPainter.CompositionMode_Clear`: the destination pixel is cleared
to fully transparent (all channels 0) wherever the source shape covers it,
regardless of the previous destination value. -/
def compositeClear (_dst : RGBA) : RGBA := ⟨0, 0, 0, 0⟩

/-- The eraser dab radius: `r = self.pen_width // 2` (Python floor
division). -/
def eraser_radius (w : ℤ) : ℤ := Int.fdiv w 2

/-- The eraser branch of `mouseMoveEvent`: a filled circle of radius
`eraser_radius w` around the cursor, drawn with `CompositionMode_Clear`
(brush color black, no pen — the brush color is irrelevant in clear mode).
Modelled per pixel: pixels inside the disc are clear-composited. -/
def eraser_dab (center : ℤ × ℤ) (w : ℤ) (img : ℤ × ℤ → RGBA) : ℤ × ℤ → RGBA :=
  fun p =>
    if (p.1 - center.1) ^ 2 + (p.2 - center.2) ^ 2 ≤ eraser_radius w ^ 2 then
      compositeClear (img p)
    else
      img p

/-- The characters Python's `str.rstrip()` removes (the ASCII whitespace
set; Python also strips some Unicode spaces, which no caller produces
here). -/
def pyIsSpace (c : Char) : Bool :=
  c = ' ' || c = '\t' || c = '\n' || c = '\r' || c = '\x0b' || c = '\x0c'

/-- Python `text.strip('\n')`: remove newline characters from both ends. -/
def stripNL (l : List Char) : List Char :=
  ((l.dropWhile (· = '\n')).reverse.dropWhile (· = '\n')).reverse

/-- Python `.rstrip()`: remove trailing whitespace. -/
def rstripWS (l : List Char) : List Char :=
  (l.reverse.dropWhile pyIsSpace).reverse

/-- `self._text_input.text().strip('\n').rstrip()` from `_commit_text`. -/
def commitTrim (t : String) : String :=
  String.mk (rstripWS (stripNL t.data))

/-- `ScreenDrawing._commit_text`: read and trim the pending text, destroy
the input widget, and — only when the trimmed text is non-empty — push one
undo snapshot and rasterize the text onto the canvas.  The Qt text
rendering (the `QPainter.drawText` loop over lines) is abstracted as the
function `rasterize`. -/
def commit_text {α : Type} (rasterize : α → TextEntry → α) (s : ScreenState α) :
    ScreenState α :=
  match s.text_input with
  | none => s
  | some entry =>
    let text := commitTrim entry.text
    let s1 : ScreenState α := { s with text_input := none }
    if text = "" then s1
    else
      let s2 := push_undo s1
      { s2 with canvas := rasterize s2.canvas { entry with text := text } }

/-- The Escape branch of `FloatingTextInput.keyPressEvent`:
`setPlainText("")` then emit `editingFinished`, which runs
`_commit_text` on the now-empty entry. -/
def escape_cancel {α : Type} (rasterize : α → TextEntry → α) (s : ScreenState α) :
    ScreenState α :=
  match s.text_input with
  | none => s
  | some entry =>
    commit_text rasterize { s with text_input := some { entry with text := "" } }

/-- A pending entry whose content trims to empty (newlines and spaces). -/
def exEntryBlank : TextEntry := ⟨(40, 80), "Sans", 24, ⟨255, 50, 50, 255⟩, "\n  \n"⟩

/-- A pending entry with non-empty trimmed content. -/
def exEntryText : TextEntry := ⟨(40, 80), "Sans", 24, ⟨255, 50, 50, 255⟩, "hi"⟩

/-- A concrete rasterization function over `α := ℕ` for witnesses. -/
def exRaster : ℕ → TextEntry → ℕ := fun c e => c + e.text.length

/-- `length = math.sqrt(dx*dx + dy*dy)` for the drag from `start` to
`end` in `draw_arrow` (QPoint coordinates are integers). -/
noncomputable def arrowLength (sx sy ex ey : ℤ) : ℝ :=
  Real.sqrt (((ex : ℝ) - (sx : ℝ)) * ((ex : ℝ) - (sx : ℝ))
    + ((ey : ℝ) - (sy : ℝ)) * ((ey : ℝ) - (sy : ℝ)))

/-- `angle = math.atan2(dy, dx)`: the argument of the complex number
`dx + i*dy` (this is exactly `atan2` on all four quadrants). -/
noncomputable def arrowAngle (sx sy ex ey : ℤ) : ℝ :=
  Complex.arg ⟨(ex : ℝ) - (sx : ℝ), (ey : ℝ) - (sy : ℝ)⟩

/-- `head_len = max(self.pen_width * 3, 15)`: an integer max, later used
in float arithmetic. -/
def arrowHeadLen (w : ℤ) : ℝ := ((max (w * 3) 15 : ℤ) : ℝ)

/-- `head_width = max(self.pen_width * 2.5, 12)`. -/
noncomputable def arrowHeadWidth (w : ℤ) : ℝ := max ((w : ℝ) * 2.5) 12

/-- `body_end_len = max(0, length - head_len)`. -/
noncomputable def arrowBodyEndLen (sx sy ex ey w : ℤ) : ℝ :=
  max 0 (arrowLength sx sy ex ey - arrowHeadLen w)

/-- `body_end = start + (cos angle, sin angle) * body_end_len`: the
body/head junction. -/
noncomputable def arrowBodyEnd (sx sy ex ey w : ℤ) : ℝ × ℝ :=
  ((sx : ℝ) + Real.cos (arrowAngle sx sy ex ey) * arrowBodyEndLen sx sy ex ey w,
   (sy : ℝ) + Real.sin (arrowAngle sx sy ex ey) * arrowBodyEndLen sx sy ex ey w)

/-- `(perp_cos, perp_sin) = (cos(angle + pi/2), sin(angle + pi/2))`: the
perpendicular unit vector used for all width offsets. -/
noncomputable def arrowPerp (sx sy ex ey : ℤ) : ℝ × ℝ :=
  (Real.cos (arrowAngle sx sy ex ey + Real.pi / 2),
   Real.sin (arrowAngle sx sy ex ey + Real.pi / 2))

/-- The vertex data `draw_arrow` computes: the body trapezoid `p1 p2 p3
p4`, the head triangle `h1 h2 h3`, and the intermediate quantities
`body_end`, `head_len`, `head_width` it derives them from. -/
structure ArrowPolys where
  p1 : ℝ × ℝ
  p2 : ℝ × ℝ
  p3 : ℝ × ℝ
  p4 : ℝ × ℝ
  h1 : ℝ × ℝ
  h2 : ℝ × ℝ
  h3 : ℝ × ℝ
  body_end : ℝ × ℝ
  head_len : ℝ
  head_width : ℝ

/-- The vertices `draw_arrow` computes in its main path: `w_start = w/2`
and `w_end = w` offsets along the perpendicular for the body trapezoid,
`head_width` offsets for the head base, apex at `end`. -/
noncomputable def arrowPolysOf (sx sy ex ey w : ℤ) : ArrowPolys :=
      { p1 := ((sx : ℝ) + ((w : ℝ) / 2) * (arrowPerp sx sy ex ey).1,
               (sy : ℝ) + ((w : ℝ) / 2) * (arrowPerp sx sy ex ey).2)
        p2 := ((sx : ℝ) - ((w : ℝ) / 2) * (arrowPerp sx sy ex ey).1,
               (sy : ℝ) - ((w : ℝ) / 2) * (arrowPerp sx sy ex ey).2)
        p3 := ((arrowBodyEnd sx sy ex ey w).1 - (w : ℝ) * (arrowPerp sx sy ex ey).1,
               (arrowBodyEnd sx sy ex ey w).2 - (w : ℝ) * (arrowPerp sx sy ex ey).2)
        p4 := ((arrowBodyEnd sx sy ex ey w).1 + (w : ℝ) * (arrowPerp sx sy ex ey).1,
               (arrowBodyEnd sx sy ex ey w).2 + (w : ℝ) * (arrowPerp sx sy ex ey).2)
        h1 := ((ex : ℝ), (ey : ℝ))
        h2 := ((arrowBodyEnd sx sy ex ey w).1 + arrowHeadWidth w * (arrowPerp sx sy ex ey).1,
               (arrowBodyEnd sx sy ex ey w).2 + arrowHeadWidth w * (arrowPerp sx sy ex ey).2)
        h3 := ((arrowBodyEnd sx sy ex ey w).1 - arrowHeadWidth w * (arrowPerp sx sy ex ey).1,
               (arrowBodyEnd sx sy ex ey w).2 - arrowHeadWidth w * (arrowPerp sx sy ex ey).2)
        body_end := arrowBodyEnd sx sy ex ey w
        head_len := arrowHeadLen w
        head_width := arrowHeadWidth w }

/-- `ScreenDrawing.draw_arrow`: `none` models the early returns (start ==
end, or length < 1, drawing nothing); otherwise the two filled polygons'
vertices, exactly as computed in the source. -/
noncomputable def draw_arrow (sx sy ex ey w : ℤ) : Option ArrowPolys :=
  if sx = ex ∧ sy = ey then none
  else if arrowLength sx sy ex ey < 1 then none
  else some (arrowPolysOf sx sy ex ey w)

/-- The unit direction vector from start to end, `(dx, dy) / length` —
equal to `(cos angle, sin angle)` for a non-degenerate arrow. -/
noncomputable def unitDir (sx sy ex ey : ℤ) : ℝ × ℝ :=
  (((ex : ℝ) - (sx : ℝ)) / arrowLength sx sy ex ey,
   ((ey : ℝ) - (sy : ℝ)) / arrowLength sx sy ex ey)

lemma stackTrace_length {α : Type} (fs : List (α → α)) (c : α) :
    (stackTrace fs c).length = fs.length := by
  induction fs generalizing c with
  | nil => rfl
  | cons f fs ih => simp [stackTrace, ih]

lemma push_undo_length {α : Type} (s : ScreenState α)
    (h : s.undo_stack.length ≤ MAX_UNDO_STEPS) :
    (push_undo s).undo_stack.length = min (s.undo_stack.length + 1) MAX_UNDO_STEPS := by
  unfold push_undo
  by_cases hc : (s.undo_stack ++ [s.canvas]).length > MAX_UNDO_STEPS
  · rw [if_pos hc]
    simp only [List.length_append, List.length_singleton] at hc
    simp only [List.length_drop, List.length_append, List.length_singleton]
    omega
  · rw [if_neg hc]
    simp only [List.length_append, List.length_singleton] at hc ⊢
    omega

lemma push_undo_no_evict {α : Type} (s : ScreenState α)
    (h : s.undo_stack.length + 1 ≤ MAX_UNDO_STEPS) :
    push_undo s = { s with undo_stack := s.undo_stack ++ [s.canvas] } := by
  unfold push_undo
  have hc : ¬ (s.undo_stack ++ [s.canvas]).length > MAX_UNDO_STEPS := by
    simp only [List.length_append, List.length_singleton]
    omega
  rw [if_neg hc]

lemma applyOps_length {α : Type} (fs : List (α → α)) (s : ScreenState α)
    (h : s.undo_stack.length ≤ MAX_UNDO_STEPS) :
    (applyOps fs s).undo_stack.length
      = min (s.undo_stack.length + fs.length) MAX_UNDO_STEPS := by
  induction fs generalizing s with
  | nil => simp [applyOps]; omega
  | cons f fs ih =>
    have hpush := push_undo_length s h
    have hstep : (undoableOp f s).undo_stack.length
        = min (s.undo_stack.length + 1) MAX_UNDO_STEPS := by
      simpa [undoableOp] using hpush
    have hle : (undoableOp f s).undo_stack.length ≤ MAX_UNDO_STEPS := by
      rw [hstep]; omega
    have hrec := ih (undoableOp f s) hle
    simp only [applyOps, List.foldl_cons] at hrec ⊢
    rw [hrec, hstep]
    simp only [List.length_cons]
    omega

/-- **C1.** Starting from an empty history stack, every undoable operation
pushes exactly one snapshot and the stack evicts its oldest entry beyond
`MAX_UNDO_STEPS = 50`, so after any sequence of `N` operations the stack
length is `min N 50`. -/
theorem history_length_min {α : Type} (fs : List (α → α)) (s : ScreenState α)
    (h0 : s.undo_stack = []) :
    (applyOps fs s).undo_stack.length = min fs.length MAX_UNDO_STEPS := by
  have := applyOps_length fs s (by rw [h0]; simp)
  rw [h0] at this
  simpa using this

/-- Witness for C1: three operations on an initially empty stack leave
exactly `min 3 50` snapshots. -/
theorem history_length_min_witness :
    baseState.undo_stack = [] ∧
      (applyOps [fun x => x + 1, fun x => x * 2, fun _ => 7] baseState).undo_stack.length
        = min 3 MAX_UNDO_STEPS :=
  ⟨rfl, history_length_min [fun x => x + 1, fun x => x * 2, fun _ => 7] baseState rfl⟩

lemma applyOps_no_evict {α : Type} (fs : List (α → α)) (s : ScreenState α)
    (h : s.undo_stack.length + fs.length ≤ MAX_UNDO_STEPS) :
    applyOps fs s = { s with canvas := foldCanvas fs s.canvas,
                             undo_stack := s.undo_stack ++ stackTrace fs s.canvas } := by
  induction fs generalizing s with
  | nil => simp [applyOps, foldCanvas, stackTrace]
  | cons f fs ih =>
    simp only [List.length_cons] at h
    have hp := push_undo_no_evict s (by omega)
    have hu : undoableOp f s
        = { s with canvas := f s.canvas, undo_stack := s.undo_stack ++ [s.canvas] } := by
      rw [undoableOp, hp]
    show applyOps fs (undoableOp f s) = _
    rw [hu, ih _ (by simp only [List.length_append, List.length_singleton]; omega)]
    simp [foldCanvas, stackTrace, List.append_assoc]

lemma undo_concat {α : Type} (s : ScreenState α) (l : List α) (a : α)
    (h : s.undo_stack = l ++ [a]) :
    undoOp s = { s with canvas := a, undo_stack := l } := by
  have h1 : s.undo_stack.getLast? = some a := by rw [h]; simp
  have h2 : s.undo_stack.dropLast = l := by rw [h]; simp
  unfold undoOp
  rw [h1, h2]

lemma stackTrace_concat {α : Type} (gs : List (α → α)) (g : α → α) (c : α) :
    stackTrace (gs ++ [g]) c = stackTrace gs c ++ [foldCanvas gs c] := by
  induction gs generalizing c with
  | nil => simp [stackTrace, foldCanvas]
  | cons f t ih => simp [stackTrace, foldCanvas, ih]

lemma undoOp_trace {α : Type} (s : ScreenState α) (fs : List (α → α)) (c : α)
    (hne : fs ≠ []) :
    undoOp { s with canvas := foldCanvas fs c, undo_stack := stackTrace fs c }
      = { s with canvas := foldCanvas fs.dropLast c,
                 undo_stack := stackTrace fs.dropLast c } := by
  rcases List.eq_nil_or_concat fs with h | ⟨gs, g, rfl⟩
  · exact absurd h hne
  · rw [undo_concat _ (stackTrace gs c) (foldCanvas gs c) (by simp [stackTrace_concat])]
    simp [List.dropLast_concat]

lemma dropLast_iterate_eq_take {β : Type} (k : ℕ) (l : List β) :
    (List.dropLast)^[k] l = l.take (l.length - k) := by
  induction k generalizing l with
  | zero => simp
  | succ k ih =>
    rw [Function.iterate_succ_apply, ih]
    rw [List.dropLast_eq_take, List.take_take, List.length_take]
    congr 1
    omega

lemma undo_iterate {α : Type} (s : ScreenState α) (fs : List (α → α)) (c : α)
    (k : ℕ) (hk : k ≤ fs.length) :
    undoOp^[k] { s with canvas := foldCanvas fs c, undo_stack := stackTrace fs c }
      = { s with canvas := foldCanvas (fs.take (fs.length - k)) c,
                 undo_stack := stackTrace (fs.take (fs.length - k)) c } := by
  induction k generalizing fs with
  | zero => simp
  | succ k ih =>
    have hne : fs ≠ [] := by
      intro h
      rw [h] at hk
      simp at hk
    rw [Function.iterate_succ_apply, undoOp_trace s fs c hne]
    rw [ih fs.dropLast (by rw [List.length_dropLast]; omega)]
    have heq : fs.dropLast.take (fs.dropLast.length - k) = fs.take (fs.length - (k + 1)) := by
      rw [List.length_dropLast, List.dropLast_eq_take, List.take_take]
      congr 1
      omega
    rw [heq]

/-- **C2.** Every push stores the canvas value as it was before the
mutating operation (the stack after `N` operations is exactly the list of
pre-operation canvases, so later mutations of the live canvas never change
a snapshot), and for `N ≤ 50` operations, `k ≤ N` undos restore the canvas
state reached after the first `N - k` operations — in particular `N` undos
restore the canvas from before the first operation. -/
theorem undo_restores_prior_states {α : Type} (fs : List (α → α)) (s : ScreenState α)
    (h0 : s.undo_stack = []) (hn : fs.length ≤ MAX_UNDO_STEPS)
    (k : ℕ) (hk : k ≤ fs.length) :
    (applyOps fs s).undo_stack = stackTrace fs s.canvas ∧
      (undoOp^[k] (applyOps fs s)).canvas
        = (applyOps (fs.take (fs.length - k)) s).canvas := by
  have hA : applyOps fs s
      = { s with canvas := foldCanvas fs s.canvas,
                 undo_stack := stackTrace fs s.canvas } := by
    have := applyOps_no_evict fs s (by rw [h0]; simpa using hn)
    rw [this, h0]
    simp
  have hB : applyOps (fs.take (fs.length - k)) s
      = { s with canvas := foldCanvas (fs.take (fs.length - k)) s.canvas,
                 undo_stack := stackTrace (fs.take (fs.length - k)) s.canvas } := by
    have := applyOps_no_evict (fs.take (fs.length - k)) s
      (by rw [h0]; simp only [List.length_nil, List.length_take]; omega)
    rw [this, h0]
    simp
  refine ⟨by rw [hA], ?_⟩
  rw [hA, undo_iterate s fs s.canvas k hk, hB]

/-- Witness for C2: two operations then two undos on a concrete state give
back the initial canvas value `0`. -/
theorem undo_restores_prior_states_witness :
    baseState.undo_stack = [] ∧
      (undoOp^[2] (applyOps [fun x => x + 1, fun x => x * 3] baseState)).canvas = 0 := by
  refine ⟨rfl, ?_⟩
  have h := (undo_restores_prior_states [fun x => x + 1, fun x => x * 3] baseState rfl
    (by decide) 2 (by decide)).2
  simpa [applyOps] using h

/-- **C3.** `undo` on a non-empty stack removes the last snapshot and makes
it the canvas; `undo` on an empty stack is a no-op that changes nothing
(and, being a total function, raises no error). -/
theorem undo_nonempty_pops_empty_noop {α : Type} (s : ScreenState α) (l : List α) (a : α) :
    (s.undo_stack = [] → undoOp s = s) ∧
      (s.undo_stack = l ++ [a] → undoOp s = { s with canvas := a, undo_stack := l }) := by
  constructor
  · intro h
    simp [undoOp, h]
  · intro h
    exact undo_concat s l a h

/-- Witness for C3: concrete empty-stack no-op and concrete pop. -/
theorem undo_nonempty_pops_empty_noop_witness :
    undoOp baseState = baseState ∧
      undoOp { baseState with undo_stack := [5] }
        = { baseState with canvas := 5, undo_stack := [] } := by
  constructor
  · exact (undo_nonempty_pops_empty_noop baseState [] 0).1 rfl
  · exact (undo_nonempty_pops_empty_noop { baseState with undo_stack := [5] } [] 5).2 rfl

/-- **C5.** An eraser dab clear-composites a disc of radius
`floor(width/2)`: every pixel inside the dab becomes fully transparent
(alpha 0) regardless of its prior color and alpha — in particular it is
neither opaque white nor opaque black. -/
theorem eraser_dab_clears (center p : ℤ × ℤ) (w : ℤ) (img : ℤ × ℤ → RGBA)
    (hin : (p.1 - center.1) ^ 2 + (p.2 - center.2) ^ 2 ≤ eraser_radius w ^ 2) :
    (eraser_dab center w img p).a = 0 ∧
      eraser_dab center w img p ≠ ⟨255, 255, 255, 255⟩ ∧
      eraser_dab center w img p ≠ ⟨0, 0, 0, 255⟩ := by
  unfold eraser_dab
  rw [if_pos hin]
  refine ⟨rfl, ?_, ?_⟩ <;> simp [compositeClear]

/-- Witness for C5: a pixel one step diagonally from the dab center, over
prior ink `(12, 200, 99, 255)`, ends fully transparent. -/
theorem eraser_dab_clears_witness :
    (((6 : ℤ), (6 : ℤ)).1 - ((5 : ℤ), (5 : ℤ)).1) ^ 2
        + (((6 : ℤ), (6 : ℤ)).2 - ((5 : ℤ), (5 : ℤ)).2) ^ 2 ≤ eraser_radius 4 ^ 2 ∧
      (eraser_dab (5, 5) 4 (fun _ => ⟨12, 200, 99, 255⟩) (6, 6)).a = 0 :=
  ⟨by decide,
    (eraser_dab_clears (5, 5) (6, 6) 4 (fun _ => ⟨12, 200, 99, 255⟩) (by decide)).1⟩

/-- **C6.** The fill brush is produced exactly when the tool is
rect/ellipse/arrow, fill is enabled and the eraser is off; and the stroke
pen is suppressed (`Qt.NoPen`) exactly when highlighter, fill and a
rect/ellipse tool combine with the eraser off (and the call is not the
line/arrow finalize path). -/
theorem fill_brush_and_outline_suppression {α : Type} (s : ScreenState α) (fl : Bool) :
    ((get_brush s).isSome = true ↔
      s.fill_enabled = true ∧
        (s.current_tool = "rect" ∨ s.current_tool = "ellipse" ∨ s.current_tool = "arrow") ∧
        s.eraser = false) ∧
      (get_pen s fl = none ↔
        s.highlighter = true ∧ s.fill_enabled = true ∧
          (s.current_tool = "rect" ∨ s.current_tool = "ellipse") ∧
          s.eraser = false ∧ fl = false) := by
  constructor
  · unfold get_brush
    split <;> simp_all
  · unfold get_pen
    split <;> simp_all

lemma setPointSize_pos {α : Type} (v : ℤ) (s : ScreenState α) (h : 0 < v) :
    setPointSize v s = { s with font_size := v } := by
  unfold setPointSize
  rw [if_pos h]

lemma set_width_pos {α : Type} (v : ℤ) (s : ScreenState α) (h : 0 < v) :
    set_width v s = { s with pen_width := v, font_size := v } := by
  unfold set_width
  rw [setPointSize_pos v _ h]

lemma setPointSize_pen_width {α : Type} (v : ℤ) (s : ScreenState α) :
    (setPointSize v s).pen_width = s.pen_width := by
  unfold setPointSize
  split <;> rfl

lemma clampSpin_of_range (v : ℤ) (h1 : 1 ≤ v) (h2 : v ≤ 120) : clampSpin v = v := by
  unfold clampSpin
  omega

lemma quick_size_of_range {α : Type} (v : ℤ) (s : ScreenState α)
    (h1 : 1 ≤ v) (h2 : v ≤ 120) :
    quick_size v s = { s with pen_width := v, font_size := v, width_spin := v } := by
  have hpt : ∀ t : ScreenState α, setPointSize v t = { t with font_size := v } :=
    fun t => setPointSize_pos v t (by omega)
  unfold quick_size setValueSpin
  rw [clampSpin_of_range v h1 h2]
  by_cases hsp : ({ s with pen_width := v } : ScreenState α).width_spin = v
  · rw [if_pos hsp, hpt]
    have hs : s.width_spin = v := hsp
    simp [hs]
  · rw [if_neg hsp]
    unfold set_width
    simp only [hpt]

/-- **C7, counterexample.** The claim states every integer passed to the
width setter ends up clamped into 1..120; but `set_width` stores the value
unchanged, so passing 0 stores a width outside that range. -/
theorem set_width_unclamped_cex :
    ¬ (1 ≤ (set_width 0 baseState).pen_width ∧ (set_width 0 baseState).pen_width ≤ 120) := by
  decide

/-- **C7, amended.** The mutators store the given value without clamping;
every value the UI can actually pass (the spinbox emits only 1..120, the
quick-size buttons pass 10/16/24/36) lies in 1..120, and for such values
the stored stroke width lies in 1..120. -/
theorem width_mutators_in_range {α : Type} (v : ℤ) (s : ScreenState α)
    (h1 : 1 ≤ v) (h2 : v ≤ 120) :
    ((set_width v s).pen_width = v ∧ 1 ≤ (set_width v s).pen_width ∧
        (set_width v s).pen_width ≤ 120) ∧
      ((quick_size v s).pen_width = v ∧ 1 ≤ (quick_size v s).pen_width ∧
        (quick_size v s).pen_width ≤ 120) := by
  have hsw : (set_width v s).pen_width = v := by
    rw [set_width_pos v s (by omega)]
  have hqs : (quick_size v s).pen_width = v := by
    rw [quick_size_of_range v s h1 h2]
  refine ⟨⟨hsw, ?_, ?_⟩, hqs, ?_, ?_⟩ <;> omega

/-- Witness for C7 (amended) at the quick-size value 36. -/
theorem width_mutators_in_range_witness :
    ((1 : ℤ) ≤ 36 ∧ (36 : ℤ) ≤ 120) ∧
      (set_width 36 baseState).pen_width = 36 ∧
      (quick_size 36 baseState).pen_width = 36 :=
  ⟨⟨by decide, by decide⟩,
    (width_mutators_in_range 36 baseState (by decide) (by decide)).1.1,
    (width_mutators_in_range 36 baseState (by decide) (by decide)).2.1⟩

/-- **C10, counterexample.** The claim couples width and font size for
*every* integer: but `QFont.setPointSize` ignores nonpositive values, so
`set_width(0)` stores width 0 while the font keeps its prior size 24; and
`quick_size(500)`'s spinbox echo re-runs `set_width(120)`, so the program
ends with width 120 while the font ends at the raw 500 — width and text
size decouple outside 1..120. -/
theorem width_font_coupling_cex :
    (set_width 0 baseState).pen_width = 0 ∧
      (set_width 0 baseState).font_size = 24 ∧ (24 : ℤ) ≠ 0 ∧
      (quick_size 500 baseState).pen_width = 120 ∧
      (quick_size 500 baseState).font_size = 500 ∧ (120 : ℤ) ≠ 500 := by
  decide

/-- **C10, amended.** For every value in 1..120 — which covers everything
the spinbox or the quick-size buttons can pass — both mutators set the
stored stroke width and the text font's point size to that same value,
leaving the current tool, pen color, and the fill/highlighter/eraser
flags unchanged.  Outside that range the coupling breaks (see the
counterexample): Qt ignores nonpositive point sizes, and `quick_size`'s
spinbox echo re-clamps the width while the font keeps the raw value. -/
theorem width_mutators_couple_font_size {α : Type} (v : ℤ) (s : ScreenState α)
    (h1 : 1 ≤ v) (h2 : v ≤ 120) :
    (set_width v s).pen_width = v ∧ (set_width v s).font_size = v ∧
      (set_width v s).current_tool = s.current_tool ∧
      (set_width v s).pen_color = s.pen_color ∧
      (set_width v s).fill_enabled = s.fill_enabled ∧
      (set_width v s).highlighter = s.highlighter ∧
      (set_width v s).eraser = s.eraser ∧
      (quick_size v s).pen_width = v ∧ (quick_size v s).font_size = v ∧
      (quick_size v s).current_tool = s.current_tool ∧
      (quick_size v s).pen_color = s.pen_color ∧
      (quick_size v s).fill_enabled = s.fill_enabled ∧
      (quick_size v s).highlighter = s.highlighter ∧
      (quick_size v s).eraser = s.eraser := by
  rw [set_width_pos v s (by omega), quick_size_of_range v s h1 h2]
  exact ⟨rfl, rfl, rfl, rfl, rfl, rfl, rfl, rfl, rfl, rfl, rfl, rfl, rfl, rfl⟩

/-- Witness for C10 (amended) at the quick-size value 16. -/
theorem width_mutators_couple_font_size_witness :
    ((1 : ℤ) ≤ 16 ∧ (16 : ℤ) ≤ 120) ∧
      (set_width 16 baseState).font_size = 16 ∧
      (quick_size 16 baseState).font_size = 16 :=
  ⟨⟨by decide, by decide⟩,
    (width_mutators_couple_font_size 16 baseState (by decide) (by decide)).2.1,
    (width_mutators_couple_font_size 16 baseState (by decide) (by decide)).2.2.2.2.2.2.2.2.1⟩

/-- **C8.** Committing a pending text entry whose trimmed content is empty
is a no-op apart from discarding the entry (no canvas mutation, no history
push); committing non-empty trimmed text pushes exactly one snapshot of
the pre-commit canvas and then rasterizes the trimmed text; and the Escape
cancel path (which empties the entry before committing) never mutates the
canvas or the history. -/
theorem text_commit_spec {α : Type} (rasterize : α → TextEntry → α)
    (s : ScreenState α) (entry : TextEntry) (hin : s.text_input = some entry)
    (hcap : s.undo_stack.length < MAX_UNDO_STEPS) :
    (commitTrim entry.text = "" →
      commit_text rasterize s = { s with text_input := none }) ∧
      (commitTrim entry.text ≠ "" →
        (commit_text rasterize s).undo_stack = s.undo_stack ++ [s.canvas] ∧
          (commit_text rasterize s).canvas
            = rasterize s.canvas { entry with text := commitTrim entry.text } ∧
          (commit_text rasterize s).text_input = none) ∧
      ((escape_cancel rasterize s).canvas = s.canvas ∧
        (escape_cancel rasterize s).undo_stack = s.undo_stack ∧
        (escape_cancel rasterize s).text_input = none) := by
  have hstep : ∀ (t : ScreenState α) (e : TextEntry), t.text_input = some e →
      commitTrim e.text = "" → commit_text rasterize t = { t with text_input := none } := by
    intro t e ht he
    unfold commit_text
    rw [ht]
    simp only [he, if_pos]
  refine ⟨hstep s entry hin, ?_, ?_⟩
  · intro hne
    have hpush : push_undo ({ s with text_input := none } : ScreenState α)
        = { s with text_input := none, undo_stack := s.undo_stack ++ [s.canvas] } := by
      have := push_undo_no_evict ({ s with text_input := none } : ScreenState α)
        (by simpa using hcap)
      simpa using this
    unfold commit_text
    rw [hin]
    simp only [if_neg hne]
    rw [hpush]
    exact ⟨rfl, rfl, rfl⟩
  · have hesc : escape_cancel rasterize s = { s with text_input := none } := by
      unfold escape_cancel
      rw [hin]
      exact hstep { s with text_input := some { entry with text := "" } }
        { entry with text := "" } rfl (by show commitTrim "" = ""; decide)
    rw [hesc]
    exact ⟨rfl, rfl, rfl⟩

/-- Witness for C8: a whitespace-only entry commits as a pure discard; the
entry "hi" pushes one snapshot and rasterizes. -/
theorem text_commit_spec_witness :
    ({ baseState with text_input := some exEntryBlank } : ScreenState ℕ).text_input
        = some exEntryBlank ∧
      commitTrim exEntryBlank.text = "" ∧
      commit_text exRaster { baseState with text_input := some exEntryBlank }
        = { baseState with text_input := none } ∧
      commitTrim exEntryText.text ≠ "" ∧
      (commit_text exRaster { baseState with text_input := some exEntryText }).undo_stack
        = [baseState.canvas] ∧
      (commit_text exRaster { baseState with text_input := some exEntryText }).canvas = 2 := by
  have h1 := (text_commit_spec exRaster { baseState with text_input := some exEntryBlank }
    exEntryBlank rfl (by decide)).1 (by decide)
  have h2 := ((text_commit_spec exRaster { baseState with text_input := some exEntryText }
    exEntryText rfl (by decide)).2.1 (by decide))
  exact ⟨rfl, by decide, h1, by decide, h2.1, h2.2.1.trans (by decide)⟩

lemma loadTool_width {α : Type} (d : SettingsJson) (s : ScreenState α) :
    (loadTool d s).pen_width = s.pen_width := by
  unfold loadTool
  repeat (first | rfl | split)

lemma loadColor?_frame {α : Type} (qcolor : JVal → RGBA) (d : SettingsJson)
    (s s' : ScreenState α) (h : loadColor? qcolor d s = some s') :
    s'.pen_width = s.pen_width ∧ s'.current_tool = s.current_tool := by
  unfold loadColor? at h
  split at h
  · split at h
    · split at h
      · injection h with h
        subst h
        exact ⟨rfl, rfl⟩
      · exact Option.noConfusion h
    · injection h with h
      subst h
      exact ⟨rfl, rfl⟩
  · injection h with h
    subst h
    exact ⟨rfl, rfl⟩

lemma loadColor?_none_reason {α : Type} (qcolor : JVal → RGBA) (d : SettingsJson)
    (s : ScreenState α) (h : loadColor? qcolor d s = none) :
    ∃ cv, d.color = some cv ∧ pyTruthy cv = true ∧ qcolorOk cv = false := by
  unfold loadColor? at h
  split at h
  · rename_i cv hcv
    split at h
    · rename_i htr
      split at h
      · exact Option.noConfusion h
      · rename_i hok
        exact ⟨cv, hcv, htr, by simpa using hok⟩
    · exact Option.noConfusion h
  · exact Option.noConfusion h

lemma loadToggles_width {α : Type} (d : SettingsJson) (s : ScreenState α) :
    (loadToggles d s).pen_width = s.pen_width := rfl

lemma loadFont_width {α : Type} (d : SettingsJson) (s : ScreenState α) :
    (loadFont d s).pen_width = s.pen_width := by
  unfold loadFont
  repeat (first | rfl | split)

lemma loadWidth_tool {α : Type} (d : SettingsJson) (s : ScreenState α) :
    (loadWidth d s).current_tool = s.current_tool := by
  unfold loadWidth
  repeat (first | rfl | split)

lemma loadToggles_tool {α : Type} (d : SettingsJson) (s : ScreenState α) :
    (loadToggles d s).current_tool = s.current_tool := rfl

lemma loadFont_tool {α : Type} (d : SettingsJson) (s : ScreenState α) :
    (loadFont d s).current_tool = s.current_tool := by
  unfold loadFont
  repeat (first | rfl | split)

lemma load_settings_some_eq {α : Type} (qcolor : JVal → RGBA) (d : SettingsJson)
    (s : ScreenState α) :
    _load_settings qcolor (some d) s
      = match loadColor? qcolor d (loadTool d s) with
        | none => loadTool d s
        | some s2 => loadFont d (loadToggles d (loadWidth d s2)) := rfl

/-- **C9, counterexample.** The claim says each valid field overrides its
default; but for the record `{"tool": "rect", "color": [1], "width": 50}`
the truthy array color makes `QColor` raise `TypeError` inside the `try`,
the `except` swallows it, and the valid width 50 never reaches its
assignment: the width stays at the default 4 (while the already-applied
tool "rect" survives, so neither are all defaults left in place). -/
theorem load_settings_partial_update_cex :
    exSettingsAbort.width = some (JVal.jint 50) ∧
      pyInt? (JVal.jint 50) = some 50 ∧ (1 : ℤ) ≤ 50 ∧ (50 : ℤ) ≤ 120 ∧
      (_load_settings (fun _ => ⟨0, 0, 0, 255⟩) (some exSettingsAbort)
          (initState (0 : ℕ))).pen_width = 4 ∧
      (_load_settings (fun _ => ⟨0, 0, 0, 255⟩) (some exSettingsAbort)
          (initState (0 : ℕ))).pen_width ≠ 50 ∧
      (_load_settings (fun _ => ⟨0, 0, 0, 255⟩) (some exSettingsAbort)
          (initState (0 : ℕ))).current_tool = "rect" :=
  ⟨rfl, rfl, by decide, by decide, by decide, by decide, by decide⟩

/-- **C9, amended.** Settings loading is a total function of the parsed
record (no exception escapes); a file-level load failure keeps every
default; an invalid width always keeps the default width 4 and an invalid
tool always keeps the default tool "pen"; a valid tool (processed first)
always overrides the default; but a valid width overrides its default
only when no earlier field raised inside the `try` — a truthy color value
that is not a string/int/bool makes `QColor` raise `TypeError`, the
`except` swallows it, and every field after color keeps its prior value
while the already-applied tool override survives. -/
theorem load_settings_amended {α : Type} (qcolor : JVal → RGBA)
    (c : α) (d : SettingsJson) :
    (_load_settings qcolor none (initState c) = initState c) ∧
      ((∀ v n, d.width = some v → pyInt? v = some n → ¬(1 ≤ n ∧ n ≤ 120)) →
        (_load_settings qcolor (some d) (initState c)).pen_width = 4) ∧
      ((∀ t, d.tool = some (JVal.jstr t) → t ∉ VALID_TOOLS) →
        (_load_settings qcolor (some d) (initState c)).current_tool = "pen") ∧
      (∀ t, d.tool = some (JVal.jstr t) → t ∈ VALID_TOOLS →
        (_load_settings qcolor (some d) (initState c)).current_tool = t) ∧
      (∀ v n, d.width = some v → pyInt? v = some n → 1 ≤ n → n ≤ 120 →
        (∀ cv, d.color = some cv → pyTruthy cv = true → qcolorOk cv = true) →
        (_load_settings qcolor (some d) (initState c)).pen_width = n) ∧
      (∀ cv, d.color = some cv → pyTruthy cv = true → qcolorOk cv = false →
        _load_settings qcolor (some d) (initState c) = loadTool d (initState c)) := by
  have hbase : (loadTool d (initState c)).pen_width = 4 := by
    rw [loadTool_width]
    rfl
  refine ⟨rfl, ?_, ?_, ?_, ?_, ?_⟩
  · intro hinv
    rcases hc : loadColor? qcolor d (loadTool d (initState c)) with _ | s2
    · simp only [load_settings_some_eq, hc]
      exact hbase
    · have hs2 : s2.pen_width = 4 := by
        rw [(loadColor?_frame qcolor d _ s2 hc).1]
        exact hbase
      simp only [load_settings_some_eq, hc]
      rw [loadFont_width, loadToggles_width]
      cases hw : d.width with
      | none => simp [loadWidth, hw, hs2]
      | some v =>
        cases hn : pyInt? v with
        | none => simp [loadWidth, hw, hn, hs2]
        | some n => simp [loadWidth, hw, hn, hinv v n hw hn, hs2]
  · intro hinv
    have htool : (loadTool d (initState c)).current_tool = "pen" := by
      cases ht : d.tool with
      | none => simp [loadTool, ht, VALID_TOOLS, initState]
      | some v =>
        cases v with
        | jstr t => simp [loadTool, ht, hinv t ht, initState]
        | jnull => simp [loadTool, ht, initState]
        | jbool b => simp [loadTool, ht, initState]
        | jint n => simp [loadTool, ht, initState]
        | jfloat q => simp [loadTool, ht, initState]
        | jarr l => simp [loadTool, ht, initState]
        | jobj l => simp [loadTool, ht, initState]
    rcases hc : loadColor? qcolor d (loadTool d (initState c)) with _ | s2
    · simp only [load_settings_some_eq, hc]
      exact htool
    · simp only [load_settings_some_eq, hc]
      rw [loadFont_tool, loadToggles_tool, loadWidth_tool,
        (loadColor?_frame qcolor d _ s2 hc).2]
      exact htool
  · intro t ht hmem
    have htool : (loadTool d (initState c)).current_tool = t := by
      simp [loadTool, ht, hmem]
    rcases hc : loadColor? qcolor d (loadTool d (initState c)) with _ | s2
    · simp only [load_settings_some_eq, hc]
      exact htool
    · simp only [load_settings_some_eq, hc]
      rw [loadFont_tool, loadToggles_tool, loadWidth_tool,
        (loadColor?_frame qcolor d _ s2 hc).2]
      exact htool
  · intro v n hw hn hr1 hr2 hguard
    rcases hc : loadColor? qcolor d (loadTool d (initState c)) with _ | s2
    · obtain ⟨cv, hcv, htr, hok⟩ := loadColor?_none_reason qcolor d _ hc
      rw [hguard cv hcv htr] at hok
      exact Bool.noConfusion hok
    · simp only [load_settings_some_eq, hc]
      rw [loadFont_width, loadToggles_width]
      simp [loadWidth, hw, hn, hr1, hr2]
  · intro cv hcv htr hok
    have hc : loadColor? qcolor d (loadTool d (initState c)) = none := by
      simp [loadColor?, hcv, htr, hok]
    simp only [load_settings_some_eq, hc]

/-- Witness for C9 (amended): a record with tool "rect" and out-of-range
width 500 keeps the default width but adopts the tool; a record with a
valid width 50 and no color field gets the width applied. -/
theorem load_settings_amended_witness :
    (_load_settings (fun _ => ⟨0, 0, 0, 255⟩) none (initState (0 : ℕ)) = initState 0) ∧
      (_load_settings (fun _ => ⟨0, 0, 0, 255⟩) (some exSettings)
          (initState (0 : ℕ))).pen_width = 4 ∧
      (_load_settings (fun _ => ⟨0, 0, 0, 255⟩) (some exSettings)
          (initState (0 : ℕ))).current_tool = "rect" ∧
      (_load_settings (fun _ => ⟨0, 0, 0, 255⟩) (some exSettingsWidth)
          (initState (0 : ℕ))).pen_width = 50 := by
  have h := load_settings_amended (α := ℕ) (fun _ => ⟨0, 0, 0, 255⟩) 0 exSettings
  have h2 := load_settings_amended (α := ℕ) (fun _ => ⟨0, 0, 0, 255⟩) 0 exSettingsWidth
  refine ⟨h.1, h.2.1 ?_, h.2.2.2.1 "rect" rfl (by decide),
    h2.2.2.2.2.1 (JVal.jint 50) 50 rfl rfl (by decide) (by decide) ?_⟩
  · intro v n hv hn
    simp only [exSettings, Option.some.injEq] at hv
    subst hv
    simp only [pyInt?, Option.some.injEq] at hn
    omega
  · intro cv hcv htr
    exact Option.noConfusion hcv

lemma arrowLength_pos (sx sy ex ey : ℤ) (h : ¬ arrowLength sx sy ex ey < 1) :
    (0 : ℝ) < arrowLength sx sy ex ey :=
  lt_of_lt_of_le one_pos (not_lt.mp h)

lemma arrowAbs (sx sy ex ey : ℤ) :
    Complex.abs ⟨(ex : ℝ) - (sx : ℝ), (ey : ℝ) - (sy : ℝ)⟩ = arrowLength sx sy ex ey := by
  rw [Complex.abs_apply, Complex.normSq_mk, arrowLength]

lemma arrowComplex_ne (sx sy ex ey : ℤ) (h : ¬ arrowLength sx sy ex ey < 1) :
    (⟨(ex : ℝ) - (sx : ℝ), (ey : ℝ) - (sy : ℝ)⟩ : ℂ) ≠ 0 := by
  have habs : Complex.abs ⟨(ex : ℝ) - (sx : ℝ), (ey : ℝ) - (sy : ℝ)⟩ ≠ 0 := by
    rw [arrowAbs]
    exact ne_of_gt (arrowLength_pos sx sy ex ey h)
  exact fun h0 => habs (by rw [h0]; simp)

lemma cos_arrowAngle (sx sy ex ey : ℤ) (h : ¬ arrowLength sx sy ex ey < 1) :
    Real.cos (arrowAngle sx sy ex ey) = (unitDir sx sy ex ey).1 := by
  rw [arrowAngle, Complex.cos_arg (arrowComplex_ne sx sy ex ey h), arrowAbs]
  rfl

lemma sin_arrowAngle (sx sy ex ey : ℤ) :
    Real.sin (arrowAngle sx sy ex ey) = (unitDir sx sy ex ey).2 := by
  rw [arrowAngle, Complex.sin_arg, arrowAbs]
  rfl

lemma arrowPerp_eq (sx sy ex ey : ℤ) (h : ¬ arrowLength sx sy ex ey < 1) :
    arrowPerp sx sy ex ey = (-(unitDir sx sy ex ey).2, (unitDir sx sy ex ey).1) := by
  unfold arrowPerp
  rw [Real.cos_add_pi_div_two, Real.sin_add_pi_div_two,
    cos_arrowAngle sx sy ex ey h, sin_arrowAngle sx sy ex ey]

lemma draw_arrow_some (sx sy ex ey w : ℤ) (hne : ¬(sx = ex ∧ sy = ey))
    (hlen : ¬ arrowLength sx sy ex ey < 1) :
    draw_arrow sx sy ex ey w = some (arrowPolysOf sx sy ex ey w) := by
  unfold draw_arrow
  rw [if_neg hne, if_neg hlen]

lemma arrow_horiz_components (sx sy ex : ℤ) (h : sx < ex) :
    arrowLength sx sy ex sy = (ex : ℝ) - (sx : ℝ) ∧ arrowAngle sx sy ex sy = 0 := by
  have hd : (0 : ℝ) < (ex : ℝ) - (sx : ℝ) := by
    have hc : (sx : ℝ) < (ex : ℝ) := by exact_mod_cast h
    linarith
  constructor
  · unfold arrowLength
    rw [sub_self]
    have hsq : ((ex : ℝ) - (sx : ℝ)) * ((ex : ℝ) - (sx : ℝ)) + 0 * 0
        = ((ex : ℝ) - (sx : ℝ)) ^ 2 := by ring
    rw [hsq, Real.sqrt_sq hd.le]
  · unfold arrowAngle
    have hmk : (⟨(ex : ℝ) - (sx : ℝ), (sy : ℝ) - (sy : ℝ)⟩ : ℂ)
        = (((ex : ℝ) - (sx : ℝ) : ℝ) : ℂ) := by
      apply Complex.ext <;> simp
    rw [hmk]
    exact Complex.arg_ofReal_of_nonneg hd.le

lemma draw_arrow_horiz (sx sy ex w : ℤ) (h : sx < ex) :
    draw_arrow sx sy ex sy w = some
      { p1 := ((sx : ℝ), (sy : ℝ) + (w : ℝ) / 2)
        p2 := ((sx : ℝ), (sy : ℝ) - (w : ℝ) / 2)
        p3 := ((sx : ℝ) + arrowBodyEndLen sx sy ex sy w, (sy : ℝ) - (w : ℝ))
        p4 := ((sx : ℝ) + arrowBodyEndLen sx sy ex sy w, (sy : ℝ) + (w : ℝ))
        h1 := ((ex : ℝ), (sy : ℝ))
        h2 := ((sx : ℝ) + arrowBodyEndLen sx sy ex sy w, (sy : ℝ) + arrowHeadWidth w)
        h3 := ((sx : ℝ) + arrowBodyEndLen sx sy ex sy w, (sy : ℝ) - arrowHeadWidth w)
        body_end := ((sx : ℝ) + arrowBodyEndLen sx sy ex sy w, (sy : ℝ))
        head_len := arrowHeadLen w
        head_width := arrowHeadWidth w } := by
  obtain ⟨hL, hA⟩ := arrow_horiz_components sx sy ex h
  have hne : ¬(sx = ex ∧ sy = sy) := fun hc => absurd hc.1 (ne_of_lt h)
  have hge : (1 : ℝ) ≤ arrowLength sx sy ex sy := by
    rw [hL]
    have h1 : sx + 1 ≤ ex := h
    have h2 : (sx : ℝ) + 1 ≤ (ex : ℝ) := by exact_mod_cast h1
    linarith
  have hlen : ¬ arrowLength sx sy ex sy < 1 := not_lt.mpr hge
  rw [draw_arrow_some sx sy ex sy w hne hlen]
  have hperp : arrowPerp sx sy ex sy = (0, 1) := by
    unfold arrowPerp
    rw [hA, zero_add, Real.cos_pi_div_two, Real.sin_pi_div_two]
  have hbe : arrowBodyEnd sx sy ex sy w
      = ((sx : ℝ) + arrowBodyEndLen sx sy ex sy w, (sy : ℝ)) := by
    unfold arrowBodyEnd
    rw [hA, Real.cos_zero, Real.sin_zero, Prod.mk.injEq]
    constructor <;> ring
  congr 1
  simp only [arrowPolysOf, hperp, hbe, ArrowPolys.mk.injEq, Prod.mk.injEq]
  norm_num

lemma arrowHeadLen_4 : arrowHeadLen 4 = 15 := by
  unfold arrowHeadLen
  have h : (max ((4 : ℤ) * 3) 15 : ℤ) = 15 := by decide
  rw [h]
  norm_num

lemma arrowHeadWidth_4 : arrowHeadWidth 4 = 12 := by
  unfold arrowHeadWidth
  push_cast
  rw [max_eq_right (by norm_num : (4 : ℝ) * 2.5 ≤ 12)]

lemma arrowLength_100 : arrowLength 0 0 100 0 = 100 := by
  have h := (arrow_horiz_components 0 0 100 (by norm_num)).1
  rw [h]
  norm_num

lemma draw_arrow_100 :
    draw_arrow 0 0 100 0 4 = some
      { p1 := (0, 2), p2 := (0, -2), p3 := (85, -4), p4 := (85, 4),
        h1 := (100, 0), h2 := (85, 12), h3 := (85, -12),
        body_end := (85, 0), head_len := 15, head_width := 12 } := by
  rw [draw_arrow_horiz 0 0 100 4 (by norm_num)]
  have hBL : arrowBodyEndLen 0 0 100 0 4 = 85 := by
    unfold arrowBodyEndLen
    rw [arrowLength_100, arrowHeadLen_4, max_eq_right (by norm_num : (0 : ℝ) ≤ 100 - 15)]
    norm_num
  congr 1
  simp only [hBL, arrowHeadLen_4, arrowHeadWidth_4, ArrowPolys.mk.injEq, Prod.mk.injEq]
  norm_num

/-- **C4, counterexample.** The claim places the body/head junction at
distance `length - head_len` from the start; the code clamps this with
`max(0, ...)`.  For start `(0,0)`, end `(10,0)`, width 4: length 10, head
length 15, so the claimed junction would sit at `x = 10 - 15 = -5`, but
the code puts it at the start point `(0,0)`. -/
theorem arrow_junction_clamped_cex :
    ∃ P : ArrowPolys, draw_arrow 0 0 10 0 4 = some P ∧
      arrowLength 0 0 10 0 - P.head_len = -5 ∧
      P.body_end = ((0 : ℝ), (0 : ℝ)) ∧
      P.body_end ≠ ((0 : ℝ) + (arrowLength 0 0 10 0 - P.head_len), (0 : ℝ)) := by
  have hL : arrowLength 0 0 10 0 = 10 := by
    have h := (arrow_horiz_components 0 0 10 (by norm_num)).1
    rw [h]
    norm_num
  have hBL : arrowBodyEndLen 0 0 10 0 4 = 0 := by
    unfold arrowBodyEndLen
    rw [hL, arrowHeadLen_4, max_eq_left (by norm_num : (10 : ℝ) - 15 ≤ 0)]
  refine ⟨_, draw_arrow_horiz 0 0 10 4 (by norm_num), ?_, ?_, ?_⟩
  · show arrowLength 0 0 10 0 - arrowHeadLen 4 = -5
    rw [hL, arrowHeadLen_4]
    norm_num
  · show (((0 : ℤ) : ℝ) + arrowBodyEndLen 0 0 10 0 4, ((0 : ℤ) : ℝ)) = ((0 : ℝ), (0 : ℝ))
    rw [hBL, Prod.mk.injEq]
    norm_num
  · show ¬ (((0 : ℤ) : ℝ) + arrowBodyEndLen 0 0 10 0 4, ((0 : ℤ) : ℝ))
        = ((0 : ℝ) + (arrowLength 0 0 10 0 - arrowHeadLen 4), (0 : ℝ))
    rw [hBL, hL, arrowHeadLen_4, Prod.mk.injEq]
    norm_num

/-- **C4, amended.** For every start/end point and width, the arrow
computes head length `max(3w, 15)` and head half-width `max(2.5w, 12)`,
puts the body/head junction at distance `max(0, length - head_len)` from
the start along the `atan2(dy, dx)` direction (the `max 0` clamp is what
the original claim omits), places the head apex exactly at the end point
with base vertices offset by plus/minus the half-width perpendicular to
the direction at the junction, builds the body as a trapezoid with
half-width `w/2` at the start and `w` at the junction, draws nothing when
start equals end or the length is below 1, and on the concrete input
start `(0,0)`, end `(100,0)`, width 4 yields head length 15, half-width
12, junction `(85,0)`, apex `(100,0)` and x-axis-symmetric vertices. -/
theorem arrow_geometry_amended :
    (∀ sx sy ex ey w : ℤ, (sx = ex ∧ sy = ey) ∨ arrowLength sx sy ex ey < 1 →
        draw_arrow sx sy ex ey w = none) ∧
      (∀ sx sy ex ey w : ℤ, ¬(sx = ex ∧ sy = ey) → ¬ arrowLength sx sy ex ey < 1 →
        ∃ P : ArrowPolys, draw_arrow sx sy ex ey w = some P ∧
          P.head_len = ((max (w * 3) 15 : ℤ) : ℝ) ∧
          P.head_width = max ((w : ℝ) * 2.5) 12 ∧
          P.h1 = ((ex : ℝ), (ey : ℝ)) ∧
          P.body_end = ((sx : ℝ) + (unitDir sx sy ex ey).1 * arrowBodyEndLen sx sy ex ey w,
            (sy : ℝ) + (unitDir sx sy ex ey).2 * arrowBodyEndLen sx sy ex ey w) ∧
          arrowBodyEndLen sx sy ex ey w
            = max 0 (arrowLength sx sy ex ey - ((max (w * 3) 15 : ℤ) : ℝ)) ∧
          P.h2 = (P.body_end.1 - (unitDir sx sy ex ey).2 * P.head_width,
            P.body_end.2 + (unitDir sx sy ex ey).1 * P.head_width) ∧
          P.h3 = (P.body_end.1 + (unitDir sx sy ex ey).2 * P.head_width,
            P.body_end.2 - (unitDir sx sy ex ey).1 * P.head_width) ∧
          P.p1 = ((sx : ℝ) - (unitDir sx sy ex ey).2 * ((w : ℝ) / 2),
            (sy : ℝ) + (unitDir sx sy ex ey).1 * ((w : ℝ) / 2)) ∧
          P.p2 = ((sx : ℝ) + (unitDir sx sy ex ey).2 * ((w : ℝ) / 2),
            (sy : ℝ) - (unitDir sx sy ex ey).1 * ((w : ℝ) / 2)) ∧
          P.p3 = (P.body_end.1 + (unitDir sx sy ex ey).2 * (w : ℝ),
            P.body_end.2 - (unitDir sx sy ex ey).1 * (w : ℝ)) ∧
          P.p4 = (P.body_end.1 - (unitDir sx sy ex ey).2 * (w : ℝ),
            P.body_end.2 + (unitDir sx sy ex ey).1 * (w : ℝ))) ∧
      draw_arrow 0 0 100 0 4 = some
        { p1 := (0, 2), p2 := (0, -2), p3 := (85, -4), p4 := (85, 4),
          h1 := (100, 0), h2 := (85, 12), h3 := (85, -12),
          body_end := (85, 0), head_len := 15, head_width := 12 } := by
  refine ⟨?_, ?_, draw_arrow_100⟩
  · intro sx sy ex ey w h
    unfold draw_arrow
    rcases h with h | h
    · rw [if_pos h]
    · by_cases h2 : sx = ex ∧ sy = ey
      · rw [if_pos h2]
      · rw [if_neg h2, if_pos h]
  · intro sx sy ex ey w hne hlen
    have hperp := arrowPerp_eq sx sy ex ey hlen
    refine ⟨arrowPolysOf sx sy ex ey w, draw_arrow_some sx sy ex ey w hne hlen,
      rfl, rfl, rfl, ?_, rfl, ?_, ?_, ?_, ?_, ?_, ?_⟩
    · show arrowBodyEnd sx sy ex ey w = _
      unfold arrowBodyEnd
      rw [cos_arrowAngle sx sy ex ey hlen, sin_arrowAngle sx sy ex ey]
    · show ((arrowBodyEnd sx sy ex ey w).1 + arrowHeadWidth w * (arrowPerp sx sy ex ey).1,
          (arrowBodyEnd sx sy ex ey w).2 + arrowHeadWidth w * (arrowPerp sx sy ex ey).2) = _
      rw [hperp, Prod.mk.injEq]
      simp only [arrowPolysOf]
      constructor <;> ring
    · show ((arrowBodyEnd sx sy ex ey w).1 - arrowHeadWidth w * (arrowPerp sx sy ex ey).1,
          (arrowBodyEnd sx sy ex ey w).2 - arrowHeadWidth w * (arrowPerp sx sy ex ey).2) = _
      rw [hperp, Prod.mk.injEq]
      simp only [arrowPolysOf]
      constructor <;> ring
    · show ((sx : ℝ) + ((w : ℝ) / 2) * (arrowPerp sx sy ex ey).1,
          (sy : ℝ) + ((w : ℝ) / 2) * (arrowPerp sx sy ex ey).2) = _
      rw [hperp, Prod.mk.injEq]
      simp only [arrowPolysOf]
      constructor <;> ring
    · show ((sx : ℝ) - ((w : ℝ) / 2) * (arrowPerp sx sy ex ey).1,
          (sy : ℝ) - ((w : ℝ) / 2) * (arrowPerp sx sy ex ey).2) = _
      rw [hperp, Prod.mk.injEq]
      simp only [arrowPolysOf]
      constructor <;> ring
    · show ((arrowBodyEnd sx sy ex ey w).1 - (w : ℝ) * (arrowPerp sx sy ex ey).1,
          (arrowBodyEnd sx sy ex ey w).2 - (w : ℝ) * (arrowPerp sx sy ex ey).2) = _
      rw [hperp, Prod.mk.injEq]
      simp only [arrowPolysOf]
      constructor <;> ring
    · show ((arrowBodyEnd sx sy ex ey w).1 + (w : ℝ) * (arrowPerp sx sy ex ey).1,
          (arrowBodyEnd sx sy ex ey w).2 + (w : ℝ) * (arrowPerp sx sy ex ey).2) = _
      rw [hperp, Prod.mk.injEq]
      simp only [arrowPolysOf]
      constructor <;> ring

/-- Witness for C4 (amended) at the spec's concrete input `(0,0) → (100,0)`,
width 4: the arrow is drawn, with apex exactly at the end point. -/
theorem arrow_geometry_amended_witness :
    ¬((0 : ℤ) = 100 ∧ (0 : ℤ) = 0) ∧ ¬ arrowLength 0 0 100 0 < 1 ∧
      ∃ P : ArrowPolys, draw_arrow 0 0 100 0 4 = some P ∧ P.h1 = ((100 : ℝ), (0 : ℝ)) := by
  have h1 : ¬((0 : ℤ) = 100 ∧ (0 : ℤ) = 0) := by norm_num
  have h2 : ¬ arrowLength 0 0 100 0 < 1 := by
    rw [arrowLength_100]
    norm_num
  obtain ⟨P, hP, _, _, hh1, _⟩ := arrow_geometry_amended.2.1 0 0 100 0 4 h1 h2
  exact ⟨h1, h2, P, hP, by exact_mod_cast hh1⟩

end ScreenDrawing
